import Mathlib

/-!
Verification development for the k6 performance/security test repository
(`k6-zap-perfsec-automation`).

The repository's executable content is three k6 scripts (`src/k6/smoke.js`,
`src/k6/load.js`, `src/k6/stress.js`).  Their option objects (stages,
thresholds), their iteration functions and their `handleSummary` renderers are
embedded below as executable Lean definitions.  The components the scripts
delegate to the external k6 engine (metric aggregation, percentile
computation, staged VU scheduling, threshold evaluation) are modelled from the
specification's component contracts; each such definition carries a doc
comment starting `Modelled from the spec:`.

Durations, latencies and rates are modelled as rationals (ℚ); counters as ℕ.
-/

namespace Core

/-- A single observation emitted by a VU worker to the aggregator:
an immutable record of a metric name and a numeric value. -/
structure Sample where
  metricName : String
  value : ℚ
deriving DecidableEq, Repr

/-- Modelled from the spec: `MetricSeries` is the aggregator-owned
running-statistics structure per metric name — count, sum, min, max, plus the
sample values retained for order statistics (standing in for the spec's
percentile-estimation structure). -/
structure MetricSeries where
  count : ℕ
  sum : ℚ
  minV : ℚ
  maxV : ℚ
  values : List ℚ
deriving DecidableEq, Repr

/-- The empty series: no samples recorded yet. -/
def MetricSeries.empty : MetricSeries :=
  { count := 0, sum := 0, minV := 0, maxV := 0, values := [] }

/-- Modelled from the spec: recording one sample value into a series —
append-only update of count, sum, running min/max, and the retained values. -/
def MetricSeries.add (m : MetricSeries) (v : ℚ) : MetricSeries :=
  { count := m.count + 1
    sum := m.sum + v
    minV := if m.count = 0 then v else min m.minV v
    maxV := if m.count = 0 then v else max m.maxV v
    values := v :: m.values }

/-- Modelled from the spec: the aggregator maps each metric name to its
running `MetricSeries`. -/
def Aggregator : Type := String → MetricSeries

/-- The aggregator before any `record` call: every metric is empty. -/
def Aggregator.empty : Aggregator := fun _ => MetricSeries.empty

/-- Modelled from the spec: `record(sample)` updates only the series of the
sample's metric name. -/
def Aggregator.record (a : Aggregator) (s : Sample) : Aggregator :=
  fun n => if n = s.metricName then (a n).add s.value else a n

/-- Recording a whole sequence of samples, in order. -/
def Aggregator.recordAll (a : Aggregator) (l : List Sample) : Aggregator :=
  l.foldl Aggregator.record a

theorem MetricSeries.count_add (m : MetricSeries) (v : ℚ) :
    (m.add v).count = m.count + 1 := rfl

theorem Aggregator.record_count (a : Aggregator) (s : Sample) (n : String) :
    (a.record s n).count =
      (a n).count + (if n = s.metricName then 1 else 0) := by
  unfold Aggregator.record
  by_cases h : n = s.metricName <;> simp [h, MetricSeries.count_add]

/-- Fold invariant: after recording a list of samples, the count of a metric
grew by exactly the number of samples carrying that metric name. -/
theorem Aggregator.recordAll_count (l : List Sample) (a : Aggregator)
    (n : String) :
    (a.recordAll l n).count =
      (a n).count + l.countP (fun s => s.metricName = n) := by
  induction l generalizing a with
  | nil => simp [Aggregator.recordAll]
  | cons s rest ih =>
      have hrec : Aggregator.recordAll a (s :: rest) =
          Aggregator.recordAll (a.record s) rest := rfl
      rw [hrec, ih, Aggregator.record_count, List.countP_cons]
      by_cases h : s.metricName = n
      · simp [h]
        omega
      · have h' : ¬ n = s.metricName := fun hc => h hc.symm
        simp [h, h']

/-- Modelled from the spec: the nearest-rank of the p-th percentile among n
samples (p in percent).  `⌈p·n/100⌉` computed with natural ceiling division,
clamped below by 1 so that p = 0 selects the smallest sample. -/
def pctRank (p n : ℕ) : ℕ := max 1 ((p * n + 99) / 100)

/-- Modelled from the spec: the p-th percentile of a sample multiset — the
value below which the given percentage of observed samples fall — realised as
the nearest-rank order statistic of the sorted sample values. -/
def percentileOf (p : ℕ) (l : List ℚ) : ℚ :=
  (l.insertionSort (· ≤ ·)).getD (pctRank p l.length - 1) 0

/-- The p-th percentile reported for a metric series. -/
def MetricSeries.pct (m : MetricSeries) (p : ℕ) : ℚ :=
  percentileOf p m.values

/-- The series obtained by recording the values of `l` in order, starting
from the empty series. -/
def seriesOf (l : List ℚ) : MetricSeries :=
  l.foldl MetricSeries.add MetricSeries.empty

theorem pctRank_pos (p n : ℕ) : 1 ≤ pctRank p n := le_max_left _ _

theorem pctRank_le (p n : ℕ) (hp : p ≤ 100) (hn : 1 ≤ n) :
    pctRank p n ≤ n := by
  unfold pctRank
  have h1 : p * n + 99 ≤ 100 * n + 99 :=
    Nat.add_le_add_right (Nat.mul_le_mul_right n hp) 99
  have h2 : (p * n + 99) / 100 ≤ (100 * n + 99) / 100 :=
    Nat.div_le_div_right h1
  have h3 : (100 * n + 99) / 100 = n := by
    omega
  exact max_le hn (by rw [h3] at h2; exact h2)

theorem pctRank_mono (p q n : ℕ) (hpq : p ≤ q) :
    pctRank p n ≤ pctRank q n := by
  unfold pctRank
  exact max_le_max (le_refl 1)
    (Nat.div_le_div_right (Nat.add_le_add_right (Nat.mul_le_mul_right n hpq) 99))

theorem values_foldl_add (l : List ℚ) (m : MetricSeries) :
    (l.foldl MetricSeries.add m).values = l.reverse ++ m.values := by
  induction l generalizing m with
  | nil => simp
  | cons v rest ih =>
      simp [List.foldl_cons, ih, MetricSeries.add]

/-- The values retained by `seriesOf l` are a permutation of `l`. -/
theorem values_seriesOf_perm (l : List ℚ) : (seriesOf l).values.Perm l := by
  unfold seriesOf
  rw [values_foldl_add]
  simp [MetricSeries.empty]

theorem count_foldl_add (l : List ℚ) (m : MetricSeries) :
    (l.foldl MetricSeries.add m).count = m.count + l.length := by
  induction l generalizing m with
  | nil => simp
  | cons v rest ih =>
      simp [List.foldl_cons, ih, MetricSeries.add]
      omega

theorem count_seriesOf (l : List ℚ) : (seriesOf l).count = l.length := by
  unfold seriesOf
  rw [count_foldl_add]
  simp [MetricSeries.empty]

/-- Running-extremes invariant maintained by `MetricSeries.add`: the count
matches the retained values, and for a non-empty series `minV`/`maxV` are
attained members bounding every retained value. -/
def ExtremesInv (m : MetricSeries) : Prop :=
  m.count = m.values.length ∧
  (m.values ≠ [] →
    m.minV ∈ m.values ∧ m.maxV ∈ m.values ∧
    ∀ x ∈ m.values, m.minV ≤ x ∧ x ≤ m.maxV)

theorem extremesInv_empty : ExtremesInv MetricSeries.empty := by
  constructor
  · rfl
  · intro h; exact absurd rfl h

theorem extremesInv_add (m : MetricSeries) (v : ℚ) (hm : ExtremesInv m) :
    ExtremesInv (m.add v) := by
  obtain ⟨hlen, hne⟩ := hm
  constructor
  · simp [MetricSeries.add, hlen]
  · intro _
    by_cases h0 : m.values = []
    · have hc0 : m.count = 0 := by rw [hlen, h0]; rfl
      simp [MetricSeries.add, hc0, h0]
    · obtain ⟨hminmem, hmaxmem, hbound⟩ := hne h0
      have hc0 : m.count ≠ 0 := by
        rw [hlen]
        simpa using fun hl => h0 (List.eq_nil_of_length_eq_zero hl)
      refine ⟨?_, ?_, ?_⟩
      · simp only [MetricSeries.add, if_neg hc0]
        rcases le_total m.minV v with h | h
        · exact List.mem_cons_of_mem _ (by simpa [min_eq_left h] using hminmem)
        · simp [min_eq_right h]
      · simp only [MetricSeries.add, if_neg hc0]
        rcases le_total v m.maxV with h | h
        · exact List.mem_cons_of_mem _ (by simpa [max_eq_left h] using hmaxmem)
        · simp [max_eq_right h]
      · intro x hx
        simp only [MetricSeries.add, if_neg hc0] at hx ⊢
        rcases List.mem_cons.mp hx with hx | hx
        · subst hx
          exact ⟨min_le_right _ _, le_max_right _ _⟩
        · obtain ⟨h1, h2⟩ := hbound x hx
          exact ⟨le_trans (min_le_left _ _) h1, le_trans h2 (le_max_left _ _)⟩

theorem extremesInv_seriesOf (l : List ℚ) : ExtremesInv (seriesOf l) := by
  unfold seriesOf
  induction l using List.reverseRecOn with
  | nil => exact extremesInv_empty
  | append_singleton rest v ih =>
      rw [List.foldl_append]
      exact extremesInv_add _ _ ih

/-- The reported percentile is one of the retained sample values. -/
theorem pct_mem (m : MetricSeries) (p : ℕ) (hp : p ≤ 100)
    (hne : m.values ≠ []) : m.pct p ∈ m.values := by
  unfold MetricSeries.pct percentileOf
  set s := m.values.insertionSort (· ≤ ·) with hs
  have hlen : s.length = m.values.length :=
    (List.perm_insertionSort _ _).length_eq
  have hn : 1 ≤ m.values.length := List.length_pos.mpr hne
  have hidx : pctRank p m.values.length - 1 < s.length := by
    rw [hlen]
    have := pctRank_le p m.values.length hp hn
    have := pctRank_pos p m.values.length
    omega
  rw [List.getD_eq_get s 0 hidx]
  exact ((List.perm_insertionSort (· ≤ ·) m.values)).mem_iff.mp
    (List.get_mem s _ hidx)

/-- Percentile reports are monotone in the requested percent. -/
theorem pct_mono (m : MetricSeries) (p q : ℕ) (hpq : p ≤ q) (hq : q ≤ 100)
    (hne : m.values ≠ []) : m.pct p ≤ m.pct q := by
  unfold MetricSeries.pct percentileOf
  set s := m.values.insertionSort (· ≤ ·) with hs
  have hlen : s.length = m.values.length :=
    (List.perm_insertionSort _ _).length_eq
  have hn : 1 ≤ m.values.length := List.length_pos.mpr hne
  have hip : pctRank p m.values.length - 1 < s.length := by
    rw [hlen]
    have h1 := pctRank_le p m.values.length (le_trans hpq hq) hn
    have h2 := pctRank_pos p m.values.length
    omega
  have hiq : pctRank q m.values.length - 1 < s.length := by
    rw [hlen]
    have h1 := pctRank_le q m.values.length hq hn
    have h2 := pctRank_pos q m.values.length
    omega
  rw [List.getD_eq_get s 0 hip, List.getD_eq_get s 0 hiq]
  have hsorted : List.Sorted (· ≤ ·) s :=
    List.sorted_insertionSort (· ≤ ·) m.values
  exact hsorted.rel_get_of_le
    (by
      show pctRank p m.values.length - 1 ≤ pctRank q m.values.length - 1
      have := pctRank_mono p q m.values.length hpq
      omega)

/-- Modelled from the spec: the state behind a rate-kind metric (such as
k6's built-in `http_req_failed`, the metric whose `.values.rate` the stress
summary reports as `failureRate`): the exact count of failed samples and the
exact count of all samples.  One sample is added per observation — `true` for
a failure, `false` for a success — so both failures and successes are
counted. -/
structure RateMetric where
  failedCount : ℕ
  totalCount : ℕ
deriving DecidableEq, Repr

/-- The rate metric before any sample. -/
def RateMetric.empty : RateMetric := ⟨0, 0⟩

/-- Recording one sample into a rate metric: the total always advances, the
failed count advances exactly on failures. -/
def RateMetric.add (m : RateMetric) (failed : Bool) : RateMetric :=
  ⟨m.failedCount + (if failed then 1 else 0), m.totalCount + 1⟩

/-- Modelled from the spec: the rate reported at snapshot time is the
quotient of the two exact counters, derived on demand. -/
def RateMetric.rate (m : RateMetric) : ℚ :=
  (m.failedCount : ℚ) / (m.totalCount : ℚ)

/-- The rate metric accumulated over a whole run: one `add` per recorded
sample outcome, in order. -/
def rateOf (outcomes : List Bool) : RateMetric :=
  outcomes.foldl RateMetric.add RateMetric.empty

theorem rateOf_foldl (outcomes : List Bool) (m : RateMetric) :
    outcomes.foldl RateMetric.add m =
      ⟨m.failedCount + outcomes.countP id, m.totalCount + outcomes.length⟩ := by
  induction outcomes generalizing m with
  | nil => simp
  | cons b rest ih =>
      simp only [List.foldl_cons, ih, RateMetric.add, List.countP_cons,
        List.length_cons]
      cases b <;> simp <;> omega

theorem rateOf_counts (outcomes : List Bool) :
    (rateOf outcomes).failedCount = outcomes.countP id ∧
    (rateOf outcomes).totalCount = outcomes.length := by
  unfold rateOf
  rw [rateOf_foldl]
  simp [RateMetric.empty]

/-- Threshold aggregation selectors, as listed in the spec's evaluator
contract: `p(N)`, `rate`, `avg`, `min`, `max`, `count`. -/
inductive AggSelector where
  | pN (n : ℕ)
  | rateSel
  | avgSel
  | minSel
  | maxSel
  | countSel
deriving DecidableEq, Repr

/-- Comparison operators supported by thresholds. -/
inductive CmpOp where
  | lt
  | le
  | gt
  | ge
deriving DecidableEq, Repr

/-- Evaluating a comparison operator against a literal bound. -/
def CmpOp.eval : CmpOp → ℚ → ℚ → Bool
  | .lt, a, b => decide (a < b)
  | .le, a, b => decide (a ≤ b)
  | .gt, a, b => decide (a > b)
  | .ge, a, b => decide (a ≥ b)

/-- Modelled from the spec: a threshold configuration tuple
`(metricName, aggregation selector, comparison operator, literal bound)`. -/
structure Threshold where
  metricName : String
  agg : AggSelector
  op : CmpOp
  bound : ℚ
deriving DecidableEq, Repr

/-- The aggregate value a selector reads from a metric series snapshot.  For
a rate-kind series the retained values are 0/1 indicators, so `rate` is the
failed-over-total quotient. -/
def MetricSeries.aggValue (m : MetricSeries) : AggSelector → ℚ
  | .pN n => m.pct n
  | .rateSel => ((m.values.countP (fun v => v ≠ 0) : ℕ) : ℚ) / (m.count : ℚ)
  | .avgSel => m.sum / (m.count : ℚ)
  | .minSel => m.minV
  | .maxSel => m.maxV
  | .countSel => (m.count : ℚ)

/-- A threshold evaluation outcome: pass, fail, or indeterminate when the
referenced metric received no samples. -/
inductive ThresholdOutcome where
  | pass
  | fail
  | indeterminate
deriving DecidableEq, Repr

/-- Modelled from the spec: evaluating one threshold against the aggregator
snapshot.  A threshold referencing a metric with zero samples is reported as
indeterminate rather than pass or fail. -/
def evaluateThreshold (a : Aggregator) (th : Threshold) : ThresholdOutcome :=
  if (a th.metricName).count = 0 then .indeterminate
  else if th.op.eval ((a th.metricName).aggValue th.agg) th.bound then .pass
  else .fail

/-- Modelled from the spec: the run's overall status passes unless some
threshold evaluates to fail; an indeterminate threshold does not by itself
fail the run. -/
def overallPass (a : Aggregator) (ths : List Threshold) : Bool :=
  ths.all (fun th => decide (evaluateThreshold a th ≠ .fail))

/-- A stage of a VU ramp profile: `(duration, targetVUs)`, durations in
seconds. -/
structure Stage where
  duration : ℚ
  target : ℚ
deriving DecidableEq, Repr

/-- Modelled from the spec: the scheduler's target VU count at elapsed time
`t` into a stage profile, starting from `prev` VUs — linear interpolation
from the previous stage's target to the current stage's target across the
stage's duration; past the end of the profile the target is 0. -/
def targetVUs (prev : ℚ) : List Stage → ℚ → ℚ
  | [], _ => 0
  | s :: rest, t =>
    if t ≤ s.duration then prev + (s.target - prev) * t / s.duration
    else targetVUs s.target rest (t - s.duration)

/-- The elapsed time at which stage `i` begins: the sum of the durations of
the stages before it. -/
def stageStart (stages : List Stage) (i : ℕ) : ℚ :=
  ((stages.take i).map Stage.duration).sum

/-- The target in force when stage `i` begins: the previous stage's target,
or the profile's starting VU count for the first stage. -/
def prevTargetAt (start : ℚ) : List Stage → ℕ → ℚ
  | _, 0 => start
  | [], _ + 1 => start
  | s :: rest, j + 1 => prevTargetAt s.target rest j

theorem stageStart_zero (stages : List Stage) : stageStart stages 0 = 0 := rfl

theorem stageStart_cons_succ (s : Stage) (rest : List Stage) (j : ℕ) :
    stageStart (s :: rest) (j + 1) = s.duration + stageStart rest j := by
  simp [stageStart]

theorem prevTargetAt_cons_succ (start : ℚ) (s : Stage) (rest : List Stage)
    (j : ℕ) :
    prevTargetAt start (s :: rest) (j + 1) = prevTargetAt s.target rest j := rfl

theorem stageStart_nonneg (stages : List Stage)
    (hpos : ∀ s ∈ stages, 0 < s.duration) (i : ℕ) :
    0 ≤ stageStart stages i := by
  unfold stageStart
  apply List.sum_nonneg
  intro x hx
  obtain ⟨s, hs, rfl⟩ := List.mem_map.mp hx
  exact le_of_lt (hpos s (List.mem_of_mem_take hs))

theorem stageStart_eq_zero (stages : List Stage)
    (hpos : ∀ s ∈ stages, 0 < s.duration) (j : ℕ) (hj : j < stages.length)
    (h0 : stageStart stages j = 0) : j = 0 := by
  cases stages with
  | nil => simp at hj
  | cons s rest =>
      cases j with
      | zero => rfl
      | succ k =>
          rw [stageStart_cons_succ] at h0
          have hd : 0 < s.duration := hpos s (List.mem_cons_self s rest)
          have hrest : ∀ x ∈ rest, 0 < x.duration :=
            fun x hx => hpos x (List.mem_cons_of_mem s hx)
          have := stageStart_nonneg rest hrest k
          linarith

/-- Within stage `i` of a positive-duration profile, the scheduler's target
is the linear interpolation from the previous stage's target to the stage's
own target. -/
theorem targetVUs_eq_interp (start : ℚ) (stages : List Stage)
    (hpos : ∀ s ∈ stages, 0 < s.duration)
    (i : ℕ) (hi : i < stages.length) (t : ℚ)
    (h1 : stageStart stages i ≤ t)
    (h2 : t ≤ stageStart stages i + (stages.get ⟨i, hi⟩).duration) :
    targetVUs start stages t =
      prevTargetAt start stages i +
        ((stages.get ⟨i, hi⟩).target - prevTargetAt start stages i) *
          (t - stageStart stages i) / (stages.get ⟨i, hi⟩).duration := by
  induction stages generalizing start i t with
  | nil => simp at hi
  | cons s rest ih =>
      have hd : 0 < s.duration := hpos s (List.mem_cons_self s rest)
      have hrest : ∀ x ∈ rest, 0 < x.duration :=
        fun x hx => hpos x (List.mem_cons_of_mem s hx)
      cases i with
      | zero =>
          rw [stageStart_zero] at h1 h2
          have hget : (s :: rest).get ⟨0, hi⟩ = s := rfl
          rw [hget] at h2 ⊢
          have hbranch : t ≤ s.duration := by linarith
          show (if t ≤ s.duration then start + (s.target - start) * t / s.duration
            else targetVUs s.target rest (t - s.duration)) = _
          rw [if_pos hbranch]
          simp [prevTargetAt, stageStart]
      | succ j =>
          have hj : j < rest.length := by simpa using hi
          have hget : (s :: rest).get ⟨j + 1, hi⟩ = rest.get ⟨j, hj⟩ := rfl
          rw [hget] at h2 ⊢
          rw [stageStart_cons_succ] at h1 h2
          rw [prevTargetAt_cons_succ, stageStart_cons_succ]
          have hsnn : 0 ≤ stageStart rest j := stageStart_nonneg rest hrest j
          by_cases hbranch : t ≤ s.duration
          · -- only possible at the shared boundary t = s.duration with
            -- stage j starting exactly there
            have ht : t = s.duration := by linarith
            have hzero : stageStart rest j = 0 := by
              have : s.duration + stageStart rest j ≤ t := h1
              linarith
            have hj0 : j = 0 := stageStart_eq_zero rest hrest j hj hzero
            subst hj0
            cases rest with
            | nil => simp at hj
            | cons r rrest =>
                have hgr : (r :: rrest).get ⟨0, hj⟩ = r := rfl
                rw [hgr]
                show (if t ≤ s.duration then
                    start + (s.target - start) * t / s.duration
                  else targetVUs s.target (r :: rrest) (t - s.duration)) = _
                rw [if_pos hbranch, ht, hzero]
                have hrd : 0 < r.duration :=
                  hrest r (List.mem_cons_self r rrest)
                rw [mul_div_assoc, div_self (ne_of_gt hd)]
                simp [prevTargetAt]
          · show (if t ≤ s.duration then
                start + (s.target - start) * t / s.duration
              else targetVUs s.target rest (t - s.duration)) = _
            rw [if_neg hbranch]
            have h1' : stageStart rest j ≤ t - s.duration := by linarith
            have h2' : t - s.duration ≤
                stageStart rest j + (rest.get ⟨j, hj⟩).duration := by linarith
            rw [ih s.target hrest j hj (t - s.duration) h1' h2']
            ring_nf

/-- Within a hold stage — one whose target equals the previous target — the
scheduler's target is that constant target. -/
theorem targetVUs_hold (start : ℚ) (stages : List Stage)
    (hpos : ∀ s ∈ stages, 0 < s.duration)
    (i : ℕ) (hi : i < stages.length) (t : ℚ)
    (h1 : stageStart stages i ≤ t)
    (h2 : t ≤ stageStart stages i + (stages.get ⟨i, hi⟩).duration)
    (hhold : (stages.get ⟨i, hi⟩).target = prevTargetAt start stages i) :
    targetVUs start stages t = (stages.get ⟨i, hi⟩).target := by
  rw [targetVUs_eq_interp start stages hpos i hi t h1 h2, hhold]
  ring

end Core

namespace Scripts

/-- The `values` object of a k6 Trend metric as read by the summaries:
min, avg, med, p(90), p(95), p(99), max. -/
structure TrendValues where
  minV : ℚ
  avg : ℚ
  med : ℚ
  p90 : ℚ
  p95 : ℚ
  p99 : ℚ
  maxV : ℚ
deriving DecidableEq, Repr

/-- The `values` object of a k6 Rate metric as read by the summaries. -/
structure RateValues where
  rate : ℚ
deriving DecidableEq, Repr

/-- The `values` object of the built-in `checks` metric: pass rate plus the
exact pass and fail counts. -/
structure CheckValues where
  rate : ℚ
  passes : ℕ
  fails : ℕ
deriving DecidableEq, Repr

/-- The `values` object of a counting metric (`http_reqs`, `iterations`):
exact count plus per-second rate. -/
structure CountValues where
  count : ℕ
  rate : ℚ
deriving DecidableEq, Repr

/-- The summary `data` consumed by `handleSummary` in `src/k6/load.js`:
the metrics the function reads, plus the tagged submetric
`http_req_duration` restricted to `expected_response:true` on which one of
the declared thresholds is defined (present in k6 summary data, unread by
the function). -/
structure LoadSummaryData where
  checks : CheckValues
  http_req_duration : TrendValues
  http_req_duration_expected : TrendValues
  http_req_failed : RateValues
  http_reqs : CountValues
  iterations : CountValues
  vus_max : ℚ
  testRunDurationMs : ℚ
deriving DecidableEq, Repr

/-- The summary `data` consumed by `handleSummary` in `src/k6/stress.js`.
The custom counters may be absent when no sample was recorded for them,
hence `Option`. -/
structure StressSummaryData where
  http_req_duration : TrendValues
  http_req_failed : RateValues
  http_reqs : CountValues
  iterations : CountValues
  vus_max : ℚ
  successful_requests : Option ℕ
  failed_requests : Option ℕ
  testRunDurationMs : ℚ
deriving DecidableEq, Repr

/-- `src/k6/load.js` lines 169-172: the overall status computed by
`handleSummary` — the conjunction actually written in the source, with the
p(99) condition read from the untagged `http_req_duration` metric. -/
def load_allPassed (d : LoadSummaryData) : Bool :=
  decide (d.http_req_duration.p95 < 400) &&
  decide (d.http_req_duration.p99 < 800) &&
  decide (d.http_req_failed.rate < 5 / 100) &&
  decide (d.checks.rate > 95 / 100)

/-- The per-threshold pass/fail outcomes printed by the THRESHOLD STATUS
block of `src/k6/load.js` (lines 157-160). -/
def load_thresholdResults (d : LoadSummaryData) : Bool × Bool × Bool × Bool :=
  (decide (d.http_req_duration.p95 < 400),
   decide (d.http_req_duration.p99 < 800),
   decide (d.http_req_failed.rate < 5 / 100),
   decide (d.checks.rate > 95 / 100))

/-- The conjunction of the evaluations of the four thresholds declared in
`src/k6/load.js` `options.thresholds` (lines 35-47), written from the
declaration itself: the `p(99)<800` threshold is declared on the
`expected_response:true` submetric of `http_req_duration`. -/
def load_declaredThresholdsPass (d : LoadSummaryData) : Bool :=
  decide (d.http_req_duration.p95 < 400) &&
  decide (d.http_req_duration_expected.p99 < 800) &&
  decide (d.http_req_failed.rate < 5 / 100) &&
  decide (d.checks.rate > 95 / 100)

/-- `src/k6/stress.js` line 207: the overall status computed by
`handleSummary`. -/
def stress_allPassed (d : StressSummaryData) : Bool :=
  decide (d.http_req_duration.p95 < 1500) &&
  decide (d.http_req_failed.rate < 20 / 100)

/-- The per-threshold pass/fail outcomes printed by the THRESHOLD STATUS
block of `src/k6/stress.js` (lines 163-164). -/
def stress_thresholdResults (d : StressSummaryData) : Bool × Bool :=
  (decide (d.http_req_duration.p95 < 1500),
   decide (d.http_req_failed.rate < 20 / 100))

/-- The conjunction of the evaluations of the two thresholds declared in
`src/k6/stress.js` `options.thresholds` (lines 38-42), written from the
declaration itself. -/
def stress_declaredThresholdsPass (d : StressSummaryData) : Bool :=
  decide (d.http_req_duration.p95 < 1500) &&
  decide (d.http_req_failed.rate < 20 / 100)

/-- `src/k6/stress.js` lines 135-136: the successful/failed counters read
with a default of 0 when the metric is absent. -/
def stress_successfulReqs (d : StressSummaryData) : ℕ :=
  d.successful_requests.getD 0

/-- `src/k6/stress.js` lines 135-136: failed counter with default 0. -/
def stress_failedReqs (d : StressSummaryData) : ℕ :=
  d.failed_requests.getD 0

/-- `src/k6/stress.js` line 137: the failure rate the summary reports is the
rate of the built-in `http_req_failed` metric. -/
def stress_failureRate (d : StressSummaryData) : ℚ :=
  d.http_req_failed.rate

/-- The four insight blocks of the STRESS TEST INSIGHTS section of
`src/k6/stress.js` (lines 176-188). -/
inductive Insight where
  | minimalFailures
  | stressSigns
  | significantStress
  | exceededCapacity
deriving DecidableEq, Repr

/-- `src/k6/stress.js` lines 176-188: the if/else-if chain selecting the
insight block from the failure rate. -/
def insightOf (r : ℚ) : Insight :=
  if r < 5 / 100 then .minimalFailures
  else if r < 15 / 100 then .stressSigns
  else if r < 20 / 100 then .significantStress
  else .exceededCapacity

/-- The three recommendation blocks of the RECOMMENDATIONS section of
`src/k6/stress.js` (lines 193-205). -/
inductive Advice where
  | increaseLoad
  | scaleOut
  | immediateAction
deriving DecidableEq, Repr

/-- `src/k6/stress.js` lines 193-205: the if/else-if chain selecting the
recommendation block from the failure rate. -/
def adviceOf (r : ℚ) : Advice :=
  if r < 5 / 100 then .increaseLoad
  else if r < 20 / 100 then .scaleOut
  else .immediateAction

/-- The stage profile declared in `src/k6/load.js` `options.stages` (lines
28-33), durations converted to seconds. -/
def loadStages : List Core.Stage :=
  [⟨60, 10⟩, ⟨180, 10⟩, ⟨60, 20⟩, ⟨60, 0⟩]

/-- The stage profile declared in `src/k6/stress.js` `options.stages`
(lines 30-36), durations converted to seconds. -/
def stressStages : List Core.Stage :=
  [⟨120, 20⟩, ⟨120, 50⟩, ⟨120, 50⟩, ⟨120, 100⟩, ⟨120, 0⟩]

/-- The three thresholds declared in `src/k6/smoke.js` `options.thresholds`
(lines 24-33). -/
def smokeThresholds : List Core.Threshold :=
  [⟨"http_req_duration", .pN 95, .lt, 800⟩,
   ⟨"errors", .rateSel, .lt, 1 / 100⟩,
   ⟨"checks", .rateSel, .gt, 95 / 100⟩]

/-- One response in the `http.batch` call of the stress iteration: as much
of a response as the code reads — status and timing. -/
structure BatchResponse where
  status : ℕ
  duration : ℚ
deriving DecidableEq, Repr

/-- The responses a stress iteration receives for its scheduled calls:
the posts-list GET, the single-post GET, the conditional create POST, and
the batch.  A failed call (timeout, reset, 5xx) still yields a response
object with a non-success status, which is how k6 presents transient
failures to the script. -/
structure IterationResponses where
  listStatus : ℕ
  listDuration : ℚ
  postStatus : ℕ
  postDuration : ℚ
  createStatus : ℕ
  createDuration : ℚ
  batch : List BatchResponse
deriving DecidableEq, Repr

/-- The metric state a stress VU writes: the `response_time` Trend samples
(most recent first), the `successful_requests` and `failed_requests`
counters, the number of `errorRate.add(1)` calls, and the number of call
responses processed. -/
structure StressVUState where
  responseTime : List ℚ
  totalSuccess : ℕ
  totalErrors : ℕ
  errorRateAdds : ℕ
  callsCompleted : ℕ
deriving DecidableEq, Repr

/-- The state before the first iteration. -/
def StressVUState.init : StressVUState := ⟨[], 0, 0, 0, 0⟩

/-- The per-call bookkeeping of `src/k6/stress.js`: record the timing into
the `response_time` Trend, then on success bump `successful_requests`, on
failure bump `failed_requests` and `error_rate`. -/
def recordCall (ok : Bool) (dur : ℚ) (st : StressVUState) : StressVUState :=
  { responseTime := dur :: st.responseTime
    totalSuccess := st.totalSuccess + (if ok then 1 else 0)
    totalErrors := st.totalErrors + (if ok then 0 else 1)
    errorRateAdds := st.errorRateAdds + (if ok then 0 else 1)
    callsCompleted := st.callsCompleted + 1 }

/-- `src/k6/stress.js` lines 47-126: one iteration of the default function
at iteration counter `iter` — list GET (success = status 200), post GET
(200), every third iteration a create POST (201), then the batch (200 each,
via `forEach`).  No response, whatever its status, throws or aborts: the
iteration always proceeds through every scheduled call. -/
def stressIteration (iter : ℕ) (r : IterationResponses)
    (st : StressVUState) : StressVUState :=
  r.batch.foldl (fun s b => recordCall (decide (b.status = 200)) b.duration s)
    (if iter % 3 = 0 then
      recordCall (decide (r.createStatus = 201)) r.createDuration
        (recordCall (decide (r.postStatus = 200)) r.postDuration
          (recordCall (decide (r.listStatus = 200)) r.listDuration st))
    else
      recordCall (decide (r.postStatus = 200)) r.postDuration
        (recordCall (decide (r.listStatus = 200)) r.listDuration st))

/-- A VU worker running its iterations in sequence: the k6 `__ITER` counter
advances by one per iteration and the worker never stops early. -/
def stressRun (iter : ℕ) : List IterationResponses → StressVUState →
    StressVUState
  | [], st => st
  | r :: rest, st => stressRun (iter + 1) rest (stressIteration iter r st)

/-- The number of calls an iteration at counter `iter` schedules: two GETs,
a create POST on every third iteration, and one call per batch entry —
determined by the iteration counter and the batch shape alone, never by any
response outcome. -/
def iterationCalls (iter : ℕ) (r : IterationResponses) : ℕ :=
  2 + (if iter % 3 = 0 then 1 else 0) + r.batch.length

/-- The number of failed calls in an iteration: non-200 list GET, non-200
post GET, non-201 create (when scheduled), non-200 batch entries. -/
def iterationFailures (iter : ℕ) (r : IterationResponses) : ℕ :=
  (if r.listStatus = 200 then 0 else 1) +
  (if r.postStatus = 200 then 0 else 1) +
  (if iter % 3 = 0 then (if r.createStatus = 201 then 0 else 1) else 0) +
  r.batch.countP (fun b => !decide (b.status = 200))

/-- Total calls scheduled across a run starting at iteration counter
`iter`. -/
def runCalls (iter : ℕ) : List IterationResponses → ℕ
  | [] => 0
  | r :: rest => iterationCalls iter r + runCalls (iter + 1) rest

/-- Total failed calls across a run. -/
def runFailures (iter : ℕ) : List IterationResponses → ℕ
  | [] => 0
  | r :: rest => iterationFailures iter r + runFailures (iter + 1) rest

theorem recordCall_calls (ok : Bool) (dur : ℚ) (st : StressVUState) :
    (recordCall ok dur st).callsCompleted = st.callsCompleted + 1 := rfl

theorem recordCall_errors (ok : Bool) (dur : ℚ) (st : StressVUState) :
    (recordCall ok dur st).totalErrors =
      st.totalErrors + (if ok then 0 else 1) := rfl

theorem recordCall_errAdds (ok : Bool) (dur : ℚ) (st : StressVUState) :
    (recordCall ok dur st).errorRateAdds =
      st.errorRateAdds + (if ok then 0 else 1) := rfl

theorem recordCall_success (ok : Bool) (dur : ℚ) (st : StressVUState) :
    (recordCall ok dur st).totalSuccess =
      st.totalSuccess + (if ok then 1 else 0) := rfl

/-- The number of successful calls in an iteration, the complement of
`iterationFailures`. -/
def iterationSuccesses (iter : ℕ) (r : IterationResponses) : ℕ :=
  (if r.listStatus = 200 then 1 else 0) +
  (if r.postStatus = 200 then 1 else 0) +
  (if iter % 3 = 0 then (if r.createStatus = 201 then 1 else 0) else 0) +
  r.batch.countP (fun b => decide (b.status = 200))

/-- Total successful calls across a run. -/
def runSuccesses (iter : ℕ) : List IterationResponses → ℕ
  | [] => 0
  | r :: rest => iterationSuccesses iter r + runSuccesses (iter + 1) rest

theorem batch_foldl_calls (l : List BatchResponse) (st : StressVUState) :
    (l.foldl (fun s b => recordCall (decide (b.status = 200)) b.duration s)
        st).callsCompleted = st.callsCompleted + l.length := by
  induction l generalizing st with
  | nil => simp
  | cons b rest ih =>
      simp only [List.foldl_cons, List.length_cons, ih, recordCall_calls]
      omega

theorem batch_foldl_errors (l : List BatchResponse) (st : StressVUState) :
    (l.foldl (fun s b => recordCall (decide (b.status = 200)) b.duration s)
        st).totalErrors =
      st.totalErrors + l.countP (fun b => !decide (b.status = 200)) := by
  induction l generalizing st with
  | nil => simp
  | cons b rest ih =>
      simp only [List.foldl_cons, List.countP_cons, ih, recordCall_errors]
      by_cases h : b.status = 200 <;> simp [h] <;> omega

theorem batch_foldl_errAdds (l : List BatchResponse) (st : StressVUState) :
    (l.foldl (fun s b => recordCall (decide (b.status = 200)) b.duration s)
        st).errorRateAdds =
      st.errorRateAdds + l.countP (fun b => !decide (b.status = 200)) := by
  induction l generalizing st with
  | nil => simp
  | cons b rest ih =>
      simp only [List.foldl_cons, List.countP_cons, ih, recordCall_errAdds]
      by_cases h : b.status = 200 <;> simp [h] <;> omega

theorem batch_foldl_success (l : List BatchResponse) (st : StressVUState) :
    (l.foldl (fun s b => recordCall (decide (b.status = 200)) b.duration s)
        st).totalSuccess =
      st.totalSuccess + l.countP (fun b => decide (b.status = 200)) := by
  induction l generalizing st with
  | nil => simp
  | cons b rest ih =>
      simp only [List.foldl_cons, List.countP_cons, ih, recordCall_success]
      by_cases h : b.status = 200 <;> simp [h] <;> omega

theorem stressIteration_calls (iter : ℕ) (r : IterationResponses)
    (st : StressVUState) :
    (stressIteration iter r st).callsCompleted =
      st.callsCompleted + iterationCalls iter r := by
  unfold stressIteration iterationCalls
  by_cases h3 : iter % 3 = 0 <;>
    simp only [h3, if_pos, if_neg, if_true, if_false, batch_foldl_calls,
      recordCall_calls, ite_true, ite_false] <;>
    simp [h3] <;> omega

theorem stressIteration_errors (iter : ℕ) (r : IterationResponses)
    (st : StressVUState) :
    (stressIteration iter r st).totalErrors =
      st.totalErrors + iterationFailures iter r := by
  unfold stressIteration iterationFailures
  by_cases h3 : iter % 3 = 0 <;>
    simp only [h3, ite_true, ite_false, batch_foldl_errors,
      recordCall_errors] <;>
    by_cases hl : r.listStatus = 200 <;>
    by_cases hp : r.postStatus = 200 <;>
    by_cases hc : r.createStatus = 201 <;>
    simp [hl, hp, hc] <;> omega

theorem stressIteration_errAdds (iter : ℕ) (r : IterationResponses)
    (st : StressVUState) :
    (stressIteration iter r st).errorRateAdds =
      st.errorRateAdds + iterationFailures iter r := by
  unfold stressIteration iterationFailures
  by_cases h3 : iter % 3 = 0 <;>
    simp only [h3, ite_true, ite_false, batch_foldl_errAdds,
      recordCall_errAdds] <;>
    by_cases hl : r.listStatus = 200 <;>
    by_cases hp : r.postStatus = 200 <;>
    by_cases hc : r.createStatus = 201 <;>
    simp [hl, hp, hc] <;> omega

theorem stressIteration_success (iter : ℕ) (r : IterationResponses)
    (st : StressVUState) :
    (stressIteration iter r st).totalSuccess =
      st.totalSuccess + iterationSuccesses iter r := by
  unfold stressIteration iterationSuccesses
  by_cases h3 : iter % 3 = 0 <;>
    simp only [h3, ite_true, ite_false, batch_foldl_success,
      recordCall_success] <;>
    by_cases hl : r.listStatus = 200 <;>
    by_cases hp : r.postStatus = 200 <;>
    by_cases hc : r.createStatus = 201 <;>
    simp [hl, hp, hc] <;> omega

theorem countP_status_split (l : List BatchResponse) :
    l.countP (fun b => decide (b.status = 200)) +
      l.countP (fun b => !decide (b.status = 200)) = l.length := by
  induction l with
  | nil => rfl
  | cons b rest ih =>
      by_cases h : b.status = 200 <;>
        simp [List.countP_cons, h, decide_not] <;> omega

theorem iteration_success_fail_split (iter : ℕ) (r : IterationResponses) :
    iterationSuccesses iter r + iterationFailures iter r =
      iterationCalls iter r := by
  unfold iterationSuccesses iterationFailures iterationCalls
  have hsplit := countP_status_split r.batch
  simp only [decide_not] at hsplit ⊢
  by_cases h3 : iter % 3 = 0 <;>
    by_cases hl : r.listStatus = 200 <;>
    by_cases hp : r.postStatus = 200 <;>
    by_cases hc : r.createStatus = 201 <;>
    simp [h3, hl, hp, hc] <;> omega

theorem stressRun_calls (rs : List IterationResponses) (iter : ℕ)
    (st : StressVUState) :
    (stressRun iter rs st).callsCompleted =
      st.callsCompleted + runCalls iter rs := by
  induction rs generalizing iter st with
  | nil => simp [stressRun, runCalls]
  | cons r rest ih =>
      simp only [stressRun, runCalls, ih (iter + 1), stressIteration_calls]
      omega

theorem stressRun_errors (rs : List IterationResponses) (iter : ℕ)
    (st : StressVUState) :
    (stressRun iter rs st).totalErrors =
      st.totalErrors + runFailures iter rs := by
  induction rs generalizing iter st with
  | nil => simp [stressRun, runFailures]
  | cons r rest ih =>
      simp only [stressRun, runFailures, ih (iter + 1), stressIteration_errors]
      omega

theorem stressRun_errAdds (rs : List IterationResponses) (iter : ℕ)
    (st : StressVUState) :
    (stressRun iter rs st).errorRateAdds =
      st.errorRateAdds + runFailures iter rs := by
  induction rs generalizing iter st with
  | nil => simp [stressRun, runFailures]
  | cons r rest ih =>
      simp only [stressRun, runFailures, ih (iter + 1),
        stressIteration_errAdds]
      omega

theorem stressRun_success (rs : List IterationResponses) (iter : ℕ)
    (st : StressVUState) :
    (stressRun iter rs st).totalSuccess =
      st.totalSuccess + runSuccesses iter rs := by
  induction rs generalizing iter st with
  | nil => simp [stressRun, runSuccesses]
  | cons r rest ih =>
      simp only [stressRun, runSuccesses, ih (iter + 1),
        stressIteration_success]
      omega

theorem run_success_fail_split (rs : List IterationResponses) (iter : ℕ) :
    runSuccesses iter rs + runFailures iter rs = runCalls iter rs := by
  induction rs generalizing iter with
  | nil => rfl
  | cons r rest ih =>
      simp only [runSuccesses, runFailures, runCalls]
      have := iteration_success_fail_split iter r
      have := ih (iter + 1)
      omega

theorem runCalls_outcome_independent (rs rs' : List IterationResponses)
    (iter : ℕ)
    (hshape : rs.map (fun r => r.batch.length) =
      rs'.map (fun r => r.batch.length)) :
    runCalls iter rs = runCalls iter rs' := by
  induction rs generalizing rs' iter with
  | nil =>
      cases rs' with
      | nil => rfl
      | cons r' rest' => simp at hshape
  | cons r rest ih =>
      cases rs' with
      | nil => simp at hshape
      | cons r' rest' =>
          simp only [List.map_cons, List.cons.injEq] at hshape
          simp only [runCalls, iterationCalls, hshape.1,
            ih rest' (iter + 1) hshape.2]

/-- `src/k6/smoke.js` lines 103-105: the object returned by
`handleSummary`, as destination/content pairs. -/
def smoke_handleSummary_return : List (String × String) := [("stdout", "")]

/-- `src/k6/load.js` lines 178-180: the object returned by
`handleSummary`. -/
def load_handleSummary_return : List (String × String) := [("stdout", "")]

/-- `src/k6/stress.js` lines 213-215: the object returned by
`handleSummary`. -/
def stress_handleSummary_return : List (String × String) := [("stdout", "")]

/-- Modelled from the spec: per k6 summary semantics, the engine prints its
built-in end-of-test summary exactly when the object `handleSummary` returns
has no entry for the `stdout` destination; an entry maps that destination to
the content written there instead. -/
def defaultSummaryShown (ret : List (String × String)) : Bool :=
  !(ret.any (fun kv => kv.1 == "stdout"))

/-- Whether `w` occurs inside `s`. -/
def mentionsWord (w s : String) : Bool :=
  decide (w.toList <:+: s.toList)

/-- A run of `n` copies of the character `c`, used for the box-art borders
of the summaries. -/
def repChar (c : Char) (n : ℕ) : String :=
  String.mk (List.replicate n c)

/-- The fixed text fragments of every `console.log` call in the
`handleSummary` of `src/k6/smoke.js` (lines 88-101) — everything except the
interpolated numeric values.  A per-threshold pass/fail marker could only
occur in these fragments, since the interpolations render numbers. -/
def smokeStaticText : List String :=
  ["\n╔" ++ repChar '═' 58 ++ "╗",
   "║" ++ repChar ' ' 10 ++ "SMOKE TEST RESULTS" ++ repChar ' ' 30 ++ "║",
   "╚" ++ repChar '═' 58 ++ "╝\n",
   "  ✓ Smoke Test Results",
   "  " ++ repChar '━' 40 ++ "\n",
   "   Checks" ++ repChar '.' 16 ++ ": ", "% ✓",
   "   Requests" ++ repChar '.' 14 ++ ": ",
   "   Request Duration p(95): ", "ms",
   "   Request Failed" ++ repChar '.' 8 ++ ": ", "%",
   "   Iterations" ++ repChar '.' 12 ++ ": ",
   "   VUs" ++ repChar '.' 19 ++ ": ", "\n"]

end Scripts

/-! ## Concrete summary-data and run instances used by the claim
counterexample and witnesses. -/

/-- A load-test summary snapshot on which the untagged p(99) and the
`expected_response:true` submetric p(99) differ: the untagged value is under
the 800ms bound while the submetric value is over it. -/
def loadDataCex : Scripts.LoadSummaryData :=
  { checks := ⟨1, 120, 0⟩
    http_req_duration := ⟨10, 50, 45, 80, 100, 700, 900⟩
    http_req_duration_expected := ⟨10, 50, 45, 80, 100, 900, 900⟩
    http_req_failed := ⟨0⟩
    http_reqs := ⟨120, 2⟩
    iterations := ⟨30, 1 / 2⟩
    vus_max := 20
    testRunDurationMs := 360000 }

/-- A load-test summary snapshot whose tagged and untagged p(99) agree. -/
def loadDataOk : Scripts.LoadSummaryData :=
  { checks := ⟨1, 120, 0⟩
    http_req_duration := ⟨10, 50, 45, 80, 100, 700, 900⟩
    http_req_duration_expected := ⟨10, 50, 45, 80, 100, 700, 900⟩
    http_req_failed := ⟨0⟩
    http_reqs := ⟨120, 2⟩
    iterations := ⟨30, 1 / 2⟩
    vus_max := 20
    testRunDurationMs := 360000 }

/-- `loadDataOk` with a different total-requests counter, a field no
threshold evaluation reads. -/
def loadDataOk2 : Scripts.LoadSummaryData :=
  { loadDataOk with http_reqs := ⟨999, 7⟩ }

/-- A stress-test summary snapshot. -/
def stressDataEx : Scripts.StressSummaryData :=
  { http_req_duration := ⟨10, 200, 180, 800, 1200, 1400, 2000⟩
    http_req_failed := ⟨1 / 10⟩
    http_reqs := ⟨5000, 9⟩
    iterations := ⟨800, 3 / 2⟩
    vus_max := 100
    successful_requests := some 4500
    failed_requests := some 500
    testRunDurationMs := 600000 }

/-- `stressDataEx` with different custom counters, fields no threshold
evaluation reads. -/
def stressDataEx2 : Scripts.StressSummaryData :=
  { stressDataEx with
    successful_requests := none
    failed_requests := none
    iterations := ⟨801, 3 / 2⟩ }

/-- A one-iteration stress run in which the posts-list GET fails with a 500
and one batch entry fails with a 503. -/
def c7runA : List Scripts.IterationResponses :=
  [⟨500, 10, 200, 12, 201, 15, [⟨200, 5⟩, ⟨503, 6⟩]⟩]

/-- A run with the same call shape as `c7runA` (same batch lengths) but
entirely different outcomes. -/
def c7runB : List Scripts.IterationResponses :=
  [⟨200, 1, 500, 2, 404, 3, [⟨500, 1⟩, ⟨404, 2⟩]⟩]

/-! ## Claims -/

/-- C1 counterexample: the overall status printed by the load summary is not
the conjunction of the evaluations of the four thresholds declared in its
configuration — on a snapshot where the declared
`http_req_duration` `expected_response:true` submetric threshold
(`p(99)<800`) fails while the untagged p(99) the summary reads is under
800ms, the summary reports PASS but the declared conjunction is false. -/
theorem counterexample_C1 :
    Scripts.load_allPassed loadDataCex ≠
      Scripts.load_declaredThresholdsPass loadDataCex := by
  norm_num [Scripts.load_allPassed, Scripts.load_declaredThresholdsPass,
    loadDataCex]

/-- C1 (amended): the stress summary's overall status equals the conjunction
of its two declared threshold evaluations; the load summary's overall status
equals the conjunction of its four declared threshold conditions with the
`p(99)<800` condition read from the untagged `http_req_duration` metric
instead of the declared `expected_response:true` submetric, so the two
conjunctions agree whenever the submetric p(99) equals the untagged
p(99). -/
theorem claim_C1 (d : Scripts.LoadSummaryData) (e : Scripts.StressSummaryData)
    (hp99 : d.http_req_duration_expected.p99 = d.http_req_duration.p99) :
    Scripts.stress_allPassed e = Scripts.stress_declaredThresholdsPass e ∧
    Scripts.load_allPassed d = Scripts.load_declaredThresholdsPass d := by
  constructor
  · rfl
  · unfold Scripts.load_allPassed Scripts.load_declaredThresholdsPass
    rw [hp99]

/-- Witness for C1 at concrete snapshots whose tagged and untagged p(99)
agree. -/
theorem witness_C1 :
    loadDataOk.http_req_duration_expected.p99 =
      loadDataOk.http_req_duration.p99 ∧
    (Scripts.stress_allPassed stressDataEx =
        Scripts.stress_declaredThresholdsPass stressDataEx ∧
      Scripts.load_allPassed loadDataOk =
        Scripts.load_declaredThresholdsPass loadDataOk) :=
  ⟨rfl, claim_C1 loadDataOk stressDataEx rfl⟩

/-- C2: the rate a rate-kind metric reports at snapshot time is the quotient
of its exact failed counter by its exact total counter, and those counters
are exactly the number of failed samples and the number of all samples
(successes included) recorded so far — the rate is derived on demand, not
kept as a separately updated running value. -/
theorem claim_C2 (outcomes : List Bool) :
    (Core.rateOf outcomes).rate =
      ((outcomes.countP id : ℕ) : ℚ) / ((outcomes.length : ℕ) : ℚ) ∧
    (Core.rateOf outcomes).failedCount = outcomes.countP id ∧
    (Core.rateOf outcomes).totalCount = outcomes.length := by
  obtain ⟨h1, h2⟩ := Core.rateOf_counts outcomes
  exact ⟨by simp [Core.RateMetric.rate, h1, h2], h1, h2⟩

/-- C3: for a non-empty sample list, the reported min and max are attained
sample values bounding every sample, and the reported order statistics
satisfy min ≤ p50 ≤ p90 ≤ p95 ≤ p99 ≤ max, so no reported percentile falls
outside the observed range. -/
theorem claim_C3 (l : List ℚ) (hne : l ≠ []) :
    (Core.seriesOf l).minV ∈ l ∧ (Core.seriesOf l).maxV ∈ l ∧
    (∀ x ∈ l, (Core.seriesOf l).minV ≤ x ∧ x ≤ (Core.seriesOf l).maxV) ∧
    (Core.seriesOf l).minV ≤ (Core.seriesOf l).pct 50 ∧
    (Core.seriesOf l).pct 50 ≤ (Core.seriesOf l).pct 90 ∧
    (Core.seriesOf l).pct 90 ≤ (Core.seriesOf l).pct 95 ∧
    (Core.seriesOf l).pct 95 ≤ (Core.seriesOf l).pct 99 ∧
    (Core.seriesOf l).pct 99 ≤ (Core.seriesOf l).maxV := by
  have hperm := Core.values_seriesOf_perm l
  have hvne : (Core.seriesOf l).values ≠ [] := by
    intro h
    have hl := hperm.length_eq
    rw [h] at hl
    simp at hl
    exact hne (List.eq_nil_of_length_eq_zero hl.symm)
  obtain ⟨hlen, hext⟩ := Core.extremesInv_seriesOf l
  obtain ⟨hminmem, hmaxmem, hbound⟩ := hext hvne
  have h50 := Core.pct_mem (Core.seriesOf l) 50 (by norm_num) hvne
  have h99 := Core.pct_mem (Core.seriesOf l) 99 (by norm_num) hvne
  refine ⟨hperm.mem_iff.mp hminmem, hperm.mem_iff.mp hmaxmem, ?_, ?_, ?_, ?_,
    ?_, ?_⟩
  · intro x hx
    exact hbound x (hperm.mem_iff.mpr hx)
  · exact (hbound _ h50).1
  · exact Core.pct_mono (Core.seriesOf l) 50 90 (by norm_num) (by norm_num) hvne
  · exact Core.pct_mono (Core.seriesOf l) 90 95 (by norm_num) (by norm_num) hvne
  · exact Core.pct_mono (Core.seriesOf l) 95 99 (by norm_num) (by norm_num) hvne
  · exact (hbound _ h99).2

/-- Witness for C3 on the sample list [3, 1, 2]. -/
theorem witness_C3 :
    (Core.seriesOf [3, 1, 2]).minV ∈ ([3, 1, 2] : List ℚ) ∧
    (Core.seriesOf [3, 1, 2]).maxV ∈ ([3, 1, 2] : List ℚ) ∧
    (Core.seriesOf [3, 1, 2]).minV ≤ (Core.seriesOf [3, 1, 2]).pct 50 ∧
    (Core.seriesOf [3, 1, 2]).pct 50 ≤ (Core.seriesOf [3, 1, 2]).pct 90 ∧
    (Core.seriesOf [3, 1, 2]).pct 90 ≤ (Core.seriesOf [3, 1, 2]).pct 95 ∧
    (Core.seriesOf [3, 1, 2]).pct 95 ≤ (Core.seriesOf [3, 1, 2]).pct 99 ∧
    (Core.seriesOf [3, 1, 2]).pct 99 ≤ (Core.seriesOf [3, 1, 2]).maxV := by
  have h := claim_C3 [3, 1, 2] (by decide)
  exact ⟨h.1, h.2.1, h.2.2.2.1, h.2.2.2.2.1, h.2.2.2.2.2.1,
    h.2.2.2.2.2.2.1, h.2.2.2.2.2.2.2⟩

/-- C4: the aggregator count of a metric equals the exact number of record
calls for that metric name; it is invariant under any reordering
(interleaving) of the recorded sequence; and a run of N workers each
recording M samples of the metric yields count N·M. -/
theorem claim_C4 (l : List Core.Sample) (name : String) :
    ((Core.Aggregator.empty.recordAll l) name).count =
      l.countP (fun s => s.metricName = name) ∧
    (∀ l', l.Perm l' →
      ((Core.Aggregator.empty.recordAll l') name).count =
        ((Core.Aggregator.empty.recordAll l) name).count) ∧
    (∀ N M : ℕ, (∀ s ∈ l, s.metricName = name) → l.length = N * M →
      ((Core.Aggregator.empty.recordAll l) name).count = N * M) := by
  have hbase := Core.Aggregator.recordAll_count l Core.Aggregator.empty name
  have hzero : (Core.Aggregator.empty name).count = 0 := rfl
  refine ⟨by rw [hbase, hzero]; omega, ?_, ?_⟩
  · intro l' hperm
    rw [Core.Aggregator.recordAll_count l' Core.Aggregator.empty name, hbase,
      hzero, hperm.countP_eq]
  · intro N M hall hlen
    rw [hbase, hzero]
    have hcp : l.countP (fun s => s.metricName = name) = l.length :=
      List.countP_eq_length.mpr (fun s hs => by simpa using hall s hs)
    rw [Nat.zero_add, hcp, hlen]

/-- Witness for C4: four samples of one metric recorded by two workers of
two samples each, and a reordering of them. -/
theorem witness_C4 :
    ((Core.Aggregator.empty.recordAll
        [⟨"m", 1⟩, ⟨"m", 2⟩, ⟨"m", 3⟩, ⟨"m", 4⟩]) "m").count = 2 * 2 ∧
    ((Core.Aggregator.empty.recordAll
        [⟨"m", 4⟩, ⟨"m", 3⟩, ⟨"m", 2⟩, ⟨"m", 1⟩]) "m").count =
      ((Core.Aggregator.empty.recordAll
        [⟨"m", 1⟩, ⟨"m", 2⟩, ⟨"m", 3⟩, ⟨"m", 4⟩]) "m").count :=
  ⟨(claim_C4 [⟨"m", 1⟩, ⟨"m", 2⟩, ⟨"m", 3⟩, ⟨"m", 4⟩] "m").2.2 2 2
      (by decide) (by decide),
   (claim_C4 [⟨"m", 1⟩, ⟨"m", 2⟩, ⟨"m", 3⟩, ⟨"m", 4⟩] "m").2.1
      [⟨"m", 4⟩, ⟨"m", 3⟩, ⟨"m", 2⟩, ⟨"m", 1⟩] (by decide)⟩

/-- C5: within stage i of a positive-duration profile, the scheduler target
is the linear interpolation
prevTarget + (stageTarget − prevTarget)·(t − stageStart)/stageDuration, and
on a hold stage (stage target equal to the previous target) it is the
constant stage target. -/
theorem claim_C5 (start : ℚ) (stages : List Core.Stage)
    (hpos : ∀ s ∈ stages, 0 < s.duration)
    (i : ℕ) (hi : i < stages.length) (t : ℚ)
    (h1 : Core.stageStart stages i ≤ t)
    (h2 : t ≤ Core.stageStart stages i + (stages.get ⟨i, hi⟩).duration) :
    Core.targetVUs start stages t =
      Core.prevTargetAt start stages i +
        ((stages.get ⟨i, hi⟩).target - Core.prevTargetAt start stages i) *
          (t - Core.stageStart stages i) / (stages.get ⟨i, hi⟩).duration ∧
    ((stages.get ⟨i, hi⟩).target = Core.prevTargetAt start stages i →
      Core.targetVUs start stages t = (stages.get ⟨i, hi⟩).target) :=
  ⟨Core.targetVUs_eq_interp start stages hpos i hi t h1 h2,
   fun hh => Core.targetVUs_hold start stages hpos i hi t h1 h2 hh⟩

/-- Witness for C5: the stress profile at t = 180s, inside its second stage
(ramp from 20 to 50 VUs over 120s starting at 120s): the target is 35. -/
theorem witness_C5 :
    Core.targetVUs 1 Scripts.stressStages 180 = 35 := by
  have hpos : ∀ s ∈ Scripts.stressStages, 0 < s.duration := by
    intro s hs
    simp only [Scripts.stressStages, List.mem_cons, List.not_mem_nil,
      or_false] at hs
    rcases hs with h | h | h | h | h <;> rw [h] <;> norm_num
  have hi : 1 < Scripts.stressStages.length := by
    simp [Scripts.stressStages]
  have h1 : Core.stageStart Scripts.stressStages 1 ≤ 180 := by
    norm_num [Core.stageStart, Scripts.stressStages]
  have h2 : (180 : ℚ) ≤ Core.stageStart Scripts.stressStages 1 +
      (Scripts.stressStages.get ⟨1, hi⟩).duration := by
    norm_num [Core.stageStart, Scripts.stressStages]
  have h := claim_C5 1 Scripts.stressStages hpos 1 hi 180 h1 h2
  rw [h.1]
  norm_num [Core.prevTargetAt, Core.stageStart, Scripts.stressStages]

/-- C6: a threshold referencing a metric with zero recorded samples
evaluates to indeterminate — neither pass nor fail — and adding such a
threshold to a run's threshold list never changes the run's overall status,
so it alone cannot force a FAIL. -/
theorem claim_C6 (a : Core.Aggregator) (th : Core.Threshold)
    (ths : List Core.Threshold) (h : (a th.metricName).count = 0) :
    Core.evaluateThreshold a th = Core.ThresholdOutcome.indeterminate ∧
    Core.overallPass a (th :: ths) = Core.overallPass a ths := by
  have heval : Core.evaluateThreshold a th =
      Core.ThresholdOutcome.indeterminate := by
    unfold Core.evaluateThreshold
    rw [if_pos h]
  refine ⟨heval, ?_⟩
  unfold Core.overallPass
  rw [List.all_cons, heval]
  simp

/-- Witness for C6: the empty aggregator and the `errors` rate threshold of
the smoke test. -/
theorem witness_C6 :
    Core.evaluateThreshold Core.Aggregator.empty
      ⟨"errors", Core.AggSelector.rateSel, Core.CmpOp.lt, 1 / 100⟩ =
      Core.ThresholdOutcome.indeterminate ∧
    Core.overallPass Core.Aggregator.empty
      [⟨"errors", Core.AggSelector.rateSel, Core.CmpOp.lt, 1 / 100⟩] =
      Core.overallPass Core.Aggregator.empty [] :=
  claim_C6 Core.Aggregator.empty
    ⟨"errors", Core.AggSelector.rateSel, Core.CmpOp.lt, 1 / 100⟩ [] rfl

/-- C7: a stress VU processes every scheduled call of every iteration —
the number of completed calls equals the schedule determined by the
iteration counters and batch shapes alone, independent of outcomes — each
transient call failure is recorded in the failed counter and the error-rate
metric, every call is recorded as exactly one success or failure, and the
call schedule is unchanged by which calls fail. -/
theorem claim_C7 (iter : ℕ) (rs : List Scripts.IterationResponses)
    (st : Scripts.StressVUState) :
    (Scripts.stressRun iter rs st).callsCompleted =
      st.callsCompleted + Scripts.runCalls iter rs ∧
    (Scripts.stressRun iter rs st).totalErrors =
      st.totalErrors + Scripts.runFailures iter rs ∧
    (Scripts.stressRun iter rs st).errorRateAdds =
      st.errorRateAdds + Scripts.runFailures iter rs ∧
    (Scripts.stressRun iter rs st).totalSuccess +
        (Scripts.stressRun iter rs st).totalErrors =
      st.totalSuccess + st.totalErrors + Scripts.runCalls iter rs ∧
    (∀ rs', rs.map (fun r => r.batch.length) =
        rs'.map (fun r => r.batch.length) →
      Scripts.runCalls iter rs = Scripts.runCalls iter rs') := by
  refine ⟨Scripts.stressRun_calls rs iter st, Scripts.stressRun_errors rs iter st,
    Scripts.stressRun_errAdds rs iter st, ?_, ?_⟩
  · rw [Scripts.stressRun_success, Scripts.stressRun_errors]
    have := Scripts.run_success_fail_split rs iter
    omega
  · intro rs' hsh
    exact Scripts.runCalls_outcome_independent rs rs' iter hsh

/-- Witness for C7: a one-iteration run with a failed list GET and a failed
batch entry — five calls complete, two failures are recorded, and the call
schedule matches that of a run with the same shape and different
outcomes. -/
theorem witness_C7 :
    (Scripts.stressRun 0 c7runA Scripts.StressVUState.init).callsCompleted =
      5 ∧
    (Scripts.stressRun 0 c7runA Scripts.StressVUState.init).totalErrors = 2 ∧
    (Scripts.stressRun 0 c7runA Scripts.StressVUState.init).errorRateAdds =
      2 ∧
    (Scripts.stressRun 0 c7runA Scripts.StressVUState.init).totalSuccess +
      (Scripts.stressRun 0 c7runA Scripts.StressVUState.init).totalErrors =
      5 ∧
    Scripts.runCalls 0 c7runA = Scripts.runCalls 0 c7runB := by
  have h := claim_C7 0 c7runA Scripts.StressVUState.init
  refine ⟨?_, ?_, ?_, ?_, h.2.2.2.2 c7runB (by decide)⟩
  · rw [h.1]; decide
  · rw [h.2.1]; decide
  · rw [h.2.2.1]; decide
  · rw [h.2.2.2.1]; decide

/-- C8: threshold evaluation is a pure function of the metric snapshot —
two snapshots agreeing on every value the thresholds read produce identical
per-threshold outcomes and identical overall statuses, in both the load and
the stress summaries, however often evaluation is invoked. -/
theorem claim_C8 (d₁ d₂ : Scripts.LoadSummaryData)
    (e₁ e₂ : Scripts.StressSummaryData)
    (h1 : d₁.http_req_duration.p95 = d₂.http_req_duration.p95)
    (h2 : d₁.http_req_duration.p99 = d₂.http_req_duration.p99)
    (h3 : d₁.http_req_failed.rate = d₂.http_req_failed.rate)
    (h4 : d₁.checks.rate = d₂.checks.rate)
    (h5 : e₁.http_req_duration.p95 = e₂.http_req_duration.p95)
    (h6 : e₁.http_req_failed.rate = e₂.http_req_failed.rate) :
    Scripts.load_thresholdResults d₁ = Scripts.load_thresholdResults d₂ ∧
    Scripts.load_allPassed d₁ = Scripts.load_allPassed d₂ ∧
    Scripts.stress_thresholdResults e₁ = Scripts.stress_thresholdResults e₂ ∧
    Scripts.stress_allPassed e₁ = Scripts.stress_allPassed e₂ := by
  unfold Scripts.load_thresholdResults Scripts.load_allPassed
    Scripts.stress_thresholdResults Scripts.stress_allPassed
  rw [h1, h2, h3, h4, h5, h6]
  exact ⟨rfl, rfl, rfl, rfl⟩

/-- Witness for C8: snapshots differing only in fields no threshold reads
(request counters) evaluate identically. -/
theorem witness_C8 :
    Scripts.load_thresholdResults loadDataOk =
      Scripts.load_thresholdResults loadDataOk2 ∧
    Scripts.load_allPassed loadDataOk = Scripts.load_allPassed loadDataOk2 ∧
    Scripts.stress_thresholdResults stressDataEx =
      Scripts.stress_thresholdResults stressDataEx2 ∧
    Scripts.stress_allPassed stressDataEx =
      Scripts.stress_allPassed stressDataEx2 :=
  claim_C8 loadDataOk loadDataOk2 stressDataEx stressDataEx2
    rfl rfl rfl rfl rfl rfl

/-- C9: all three scripts return an object mapping the stdout destination to
the empty string from `handleSummary` — suppressing the engine's default
end-of-test summary — and the smoke summary's fixed rendering text contains
no per-threshold PASS/FAIL marker even though the smoke configuration
declares three thresholds. -/
theorem claim_C9 :
    Scripts.defaultSummaryShown Scripts.smoke_handleSummary_return = false ∧
    Scripts.defaultSummaryShown Scripts.load_handleSummary_return = false ∧
    Scripts.defaultSummaryShown Scripts.stress_handleSummary_return = false ∧
    Scripts.smoke_handleSummary_return.lookup "stdout" = some "" ∧
    Scripts.load_handleSummary_return.lookup "stdout" = some "" ∧
    Scripts.stress_handleSummary_return.lookup "stdout" = some "" ∧
    Scripts.smokeThresholds.length = 3 ∧
    Scripts.smokeStaticText.all (fun s =>
      !(Scripts.mentionsWord "PASS" s || Scripts.mentionsWord "FAIL" s)) =
      true := by
  refine ⟨rfl, rfl, rfl, rfl, rfl, rfl, rfl, by decide⟩

/-- C10: every failure rate in [0, ∞) selects exactly one insight block —
the four insight bands are disjoint and exhaustive — and exactly one
recommendation block, whose bands merge the two middle insight bands into
[0.05, 0.20). -/
theorem claim_C10 (r : ℚ) (h : 0 ≤ r) :
    (Scripts.insightOf r = Scripts.Insight.minimalFailures ↔
      0 ≤ r ∧ r < 5 / 100) ∧
    (Scripts.insightOf r = Scripts.Insight.stressSigns ↔
      5 / 100 ≤ r ∧ r < 15 / 100) ∧
    (Scripts.insightOf r = Scripts.Insight.significantStress ↔
      15 / 100 ≤ r ∧ r < 20 / 100) ∧
    (Scripts.insightOf r = Scripts.Insight.exceededCapacity ↔
      20 / 100 ≤ r) ∧
    (Scripts.adviceOf r = Scripts.Advice.increaseLoad ↔
      0 ≤ r ∧ r < 5 / 100) ∧
    (Scripts.adviceOf r = Scripts.Advice.scaleOut ↔
      5 / 100 ≤ r ∧ r < 20 / 100) ∧
    (Scripts.adviceOf r = Scripts.Advice.immediateAction ↔
      20 / 100 ≤ r) ∧
    (Scripts.adviceOf r = Scripts.Advice.scaleOut ↔
      (Scripts.insightOf r = Scripts.Insight.stressSigns ∨
        Scripts.insightOf r = Scripts.Insight.significantStress)) := by
  unfold Scripts.insightOf Scripts.adviceOf
  split_ifs with h1 h2 h3 <;>
    refine ⟨?_, ?_, ?_, ?_, ?_, ?_, ?_, ?_⟩ <;>
    simp <;>
    first
      | (refine ⟨by linarith, by linarith⟩)
      | (rintro ⟨ha, hb⟩; linarith)
      | linarith
      | (intro ha; linarith)

/-- Witness for C10 at failure rate 0.10: the stress-signs insight and the
scale-out recommendation. -/
theorem witness_C10 :
    Scripts.insightOf (1 / 10) = Scripts.Insight.stressSigns ∧
    Scripts.adviceOf (1 / 10) = Scripts.Advice.scaleOut := by
  have h := claim_C10 (1 / 10) (by norm_num)
  exact ⟨h.2.1.mpr (by norm_num), h.2.2.2.2.2.1.mpr (by norm_num)⟩
